import Mathlib

/-!
Verification of the WBMatch listing-resolution module (`listing-match.py`).

The development shallowly embeds the module's functions over explicit data:

* Python strings are lists of Unicode code points (`PyStr := List ℕ`); the
  only character-level operations the module performs are `lstrip(' ')`,
  slicing, `.upper()`, `.lower()` and `.index(",")`, all of which are modelled
  on code points (case mapping is the ASCII mapping, which agrees with
  Python's `str.upper`/`str.lower` on ASCII input).
* IEEE floats appear only through `scipy.stats.zscore`; the embedding keeps
  exact rationals plus an explicit `nan` marker (`PyFloat`), with 0/0
  producing `nan` as in IEEE arithmetic.
* A `pandas` data frame is a list of rows plus a list of column names
  (`Frame`); column lookup on a missing name raises, lookup of a cell absent
  from an individual row yields `NaN`, matching `json_normalize`'s fill
  behaviour.
* Fallible Python code returns `Except PyErr`, where `PyErr` names the
  exception class the interpreter would raise.
* External collaborators (the Nominatim geocoder, the offline `pgeocode`
  lookup and `fuzz.partial_ratio`) are parameters collected in `Env`; the
  per-attempt Elasticsearch response is a parameter `resp : ℕ → ⋯` so that
  the retry loop of `WB_Match` can be analysed.
-/

deriving instance DecidableEq for Except

/-- A Python string, as its list of Unicode code points. -/
abbrev PyStr := List ℕ

/-- Code points of a Lean string literal, used to write concrete `PyStr`s. -/
def strCodes (s : String) : PyStr := s.data.map Char.toNat

/-- A Python float: either an exact value or the IEEE `nan` marker. -/
inductive PyFloat where
  | val (q : ℚ)
  | nan
deriving DecidableEq

/-- A cell of a pandas data frame as this module uses them: a string, a
float (`NaN` marks a value missing from a hit), Python `None` (produced by
`normalize_postalcode` on non-string cells), or an integer (DBSCAN labels). -/
inductive CellVal where
  | s (v : PyStr)
  | f (v : PyFloat)
  | pyNone
  | i (n : ℤ)
deriving DecidableEq

/-- A dynamically typed Python value, as passed for the `postcode` argument:
`None`, a float (the `NaN` a pandas cell yields), a string, or any other
non-string object (represented by an integer). -/
inductive PyVal where
  | noneV
  | floatV (x : PyFloat)
  | strV (s : PyStr)
  | intV (n : ℤ)
deriving DecidableEq

/-- The exception classes the module can raise. `unboundLocal` is
`UnboundLocalError` (a local variable referenced before assignment). -/
inductive PyErr where
  | transportError
  | valueError
  | keyError
  | attributeError
  | indexError
  | unboundLocal
deriving DecidableEq

/-- ASCII upper-case mapping on a code point, the action of Python's
`str.upper` on ASCII characters. -/
def pyUpperN (n : ℕ) : ℕ := if 97 ≤ n ∧ n ≤ 122 then n - 32 else n

/-- ASCII lower-case mapping on a code point, the action of Python's
`str.lower` on ASCII characters. -/
def pyLowerN (n : ℕ) : ℕ := if 65 ≤ n ∧ n ≤ 90 then n + 32 else n

/-- `s.upper()`, character-wise. -/
def pyUpperS (s : PyStr) : PyStr := s.map pyUpperN

/-- `s.lower()`, character-wise. -/
def pyLowerS (s : PyStr) : PyStr := s.map pyLowerN

/-- `s.lstrip(' ')`: remove leading space characters (code point 32) only. -/
def lstripSpace : PyStr → PyStr
  | [] => []
  | c :: cs => if c = 32 then lstripSpace cs else c :: cs

/-- The string transformation of `normalize_postalcode` on an actual string:
strip leading spaces, insert a space after the third character when the
length is exactly 6, then upper-case. -/
def normPC (s : PyStr) : PyStr :=
  pyUpperS (if (lstripSpace s).length = 6
            then (lstripSpace s).take 3 ++ 32 :: (lstripSpace s).drop 3
            else lstripSpace s)

/-- `normalize_postalcode(PC)` on a dynamically typed argument.  The source
returns `None` for `None` or float input (`if PC == None or type(PC) ==
float: return`); a string is normalised; any other object reaches
`PC.lstrip(' ')` and raises `AttributeError`. -/
def normalize_postalcode : PyVal → Except PyErr PyVal
  | .noneV => .ok .noneV
  | .floatV _ => .ok .noneV
  | .strV s => .ok (.strV (normPC s))
  | .intV _ => .error .attributeError

/-! ## External collaborators -/

/-- A bounding box as the module passes it around: `[[top-left longitude,
top-left latitude], [bottom-right longitude, bottom-right latitude]]`. -/
structure BBox where
  tlLon : ℚ
  tlLat : ℚ
  brLon : ℚ
  brLat : ℚ
deriving DecidableEq

/-- The external collaborators of the module.  `geocode` is
`locator.geocode(s, country_codes='ca')`, returning the raw `boundingbox`
`[south, north, west, east]` (the list of four strings, already converted to
numbers) or `none` for a lookup miss (Python `None`, on which the `.raw`
attribute access raises `AttributeError`).  `pgeoLookup` is the offline
`pgeocode` reverse lookup, returning `(longitude, latitude)`, possibly `NaN`
for an unknown code.  `fuzzPartial` is `fuzz.partial_ratio`, an integer
0–100. -/
structure Env where
  geocode : PyStr → Option (ℚ × ℚ × ℚ × ℚ)
  pgeoLookup : PyStr → PyFloat × PyFloat
  fuzzPartial : PyStr → PyStr → ℕ

/-- Everything after the first comma of a string (`s[s.index(",")+1:]`);
only meaningful when the string contains a comma. -/
def afterFirstComma : PyStr → PyStr
  | [] => []
  | c :: cs => if c = 44 then cs else afterFirstComma cs

/-- Reformatting of a raw `[south, north, west, east]` bounding box into the
`[[west, north], [east, south]]` order the rest of the module expects. -/
def mkBox (l : ℚ × ℚ × ℚ × ℚ) : BBox :=
  ⟨l.2.2.1, l.2.1, l.2.2.2, l.1⟩

/-- The hard-coded country-wide fallback bounding box for Canada. -/
def canadaBox : BBox :=
  ⟨-16673 / 100, 7627 / 100, -2874 / 100, 4118 / 100⟩

/-- `get_bounds(searchstring)`.  A geocoder miss makes `.raw` raise
`AttributeError`, which the source catches; it then evaluates
`searchstring.index(",")`, which raises `ValueError` when the string has no
comma (code point 44), drops everything through the first comma, strips
leading spaces and retries once; a second miss falls back to `canadaBox`.
The rate-limit `time.sleep` has no observable effect and is not modelled. -/
def get_bounds (env : Env) (searchstring : PyStr) : Except PyErr BBox :=
  match env.geocode searchstring with
  | some l => .ok (mkBox l)
  | none =>
    if (44 : ℕ) ∈ searchstring then
      match env.geocode (lstripSpace (afterFirstComma searchstring)) with
      | some l => .ok (mkBox l)
      | none => .ok canadaBox
    else .error .valueError

/-- The Canadian postal-code pattern
`^(?!.*[DFIOQU])[A-VXY][0-9][A-Z]\s[0-9][A-Z][0-9]$` on code points.  The
negative look-ahead excludes D, F, I, O, Q, U anywhere in the string; `\s`
is modelled as ASCII whitespace (space or 9–13), which covers every
character `normalize_postalcode` can put in position 3. -/
def isZip (s : PyStr) : Bool :=
  match s with
  | [c0, c1, c2, c3, c4, c5, c6] =>
    ((65 ≤ c0 ∧ c0 ≤ 86) ∨ c0 = 88 ∨ c0 = 89 : Bool) &&
    (48 ≤ c1 ∧ c1 ≤ 57 : Bool) &&
    (65 ≤ c2 ∧ c2 ≤ 90 : Bool) &&
    (c3 = 32 ∨ (9 ≤ c3 ∧ c3 ≤ 13) : Bool) &&
    (48 ≤ c4 ∧ c4 ≤ 57 : Bool) &&
    (65 ≤ c5 ∧ c5 ≤ 90 : Bool) &&
    (48 ≤ c6 ∧ c6 ≤ 57 : Bool) &&
    (∀ c ∈ s, c ≠ 68 ∧ c ≠ 70 ∧ c ≠ 73 ∧ c ≠ 79 ∧ c ≠ 81 ∧ c ≠ 85 : Bool)
  | _ => false

/-- `get_geocode(location)`: `None` for `None` or float input; a string is
normalised again (idempotent) and, when it matches the postal-code pattern,
reverse-looked-up offline to `[longitude, latitude]`; a non-match falls off
the end of the function, returning `None`.  Any other object would reach
`normalize_postalcode` and raise `AttributeError`. -/
def get_geocode (env : Env) : PyVal → Except PyErr (Option (PyFloat × PyFloat))
  | .noneV => .ok none
  | .floatV _ => .ok none
  | .strV s =>
    .ok (if isZip (normPC s) then some (env.pgeoLookup (normPC s)) else none)
  | .intV _ => .error .attributeError

/-! ## Data frames -/

/-- One row of the candidate frame: the `_id` index value, the relevance
`score` (the renamed `_score`, always numeric in an Elasticsearch response)
and the remaining cells, keyed by flattened `_source` column name. -/
structure FRow where
  id : String
  score : ℚ
  cells : List (String × CellVal)
deriving DecidableEq

/-- A candidate frame: the global column list (lookup of a name outside it
raises) and the rows.  By construction `score` is the first column,
matching the source's reliance on the score being column 0. -/
structure Frame where
  cols : List String
  rows : List FRow
deriving DecidableEq

/-- Association-list lookup for row cells. -/
def lookupCell : List (String × CellVal) → String → Option CellVal
  | [], _ => none
  | (k, w) :: rest, c => if k = c then some w else lookupCell rest c

/-- Replace the binding of a column in a row's cells, or append it. -/
def upsertCells : List (String × CellVal) → String → CellVal → List (String × CellVal)
  | [], c, v => [(c, v)]
  | (k, w) :: rest, c, v =>
    if k = c then (k, v) :: rest else (k, w) :: upsertCells rest c v

/-- The value of a column in a row: the `score` field for column `score`,
otherwise the stored cell, with `NaN` for a cell a hit omitted (pandas
`json_normalize` fills missing keys with `NaN`). -/
def getCellR (r : FRow) (c : String) : CellVal :=
  if c = "score" then .f (.val r.score)
  else match lookupCell r.cells c with
    | some v => v
    | none => .f .nan

/-- Add a column name to the column list if it is not already there. -/
def addColName (cols : List String) (c : String) : List String :=
  if c ∈ cols then cols else cols ++ [c]

/-- Broadcast assignment `df[c] = scalar`. -/
def setColScalar (f : Frame) (c : String) (v : CellVal) : Frame :=
  ⟨addColName f.cols c, f.rows.map fun r => ⟨r.id, r.score, upsertCells r.cells c v⟩⟩

/-- Boolean-mask row filtering `df[mask]`; columns are preserved. -/
def filterRows (p : FRow → Bool) (f : Frame) : Frame :=
  ⟨f.cols, f.rows.filter p⟩

/-- The scores column, in row order. -/
def scoresOf (f : Frame) : List ℚ := f.rows.map (·.score)

/-- Maximum of a list of rationals (`Series.max()`); 0 for the empty list,
which no caller reaches. -/
def maxQ : List ℚ → ℚ
  | [] => 0
  | x :: xs => xs.foldl max x

/-- `df["score"].max()`. -/
def maxScoreOf (f : Frame) : ℚ := maxQ (scoresOf f)

/-- `results[results["score"] == results["score"].max()]`. -/
def filterMax (f : Frame) : Frame :=
  filterRows (fun r => decide (r.score = maxScoreOf f)) f

/-! ## ES_Query -/

/-- One raw Elasticsearch hit: `_id`, `_score`, and the flattened `_source`
document (`json_normalize` dot-joins nested keys, e.g. `tags.age`).  The
bookkeeping fields `_index`, `_type`, `_source`, `matched_queries` that the
source immediately drops are not carried. -/
structure Hit where
  id : String
  score : ℚ
  src : List (String × CellVal)
deriving DecidableEq

/-- First-occurrence deduplication of column names. -/
def dedupFirst : List String → List String
  | [] => []
  | c :: rest =>
    let r := dedupFirst rest
    if c ∈ r then r else c :: r

/-- The frame `pd.concat([results, json_normalize(results["_source"])],
axis=1)` after `set_index("_id")`, dropping bookkeeping columns and renaming
`_score` to `score`: columns are `score` followed by the union of the hits'
source keys; a key missing from an individual hit reads as `NaN`. -/
def buildFrame (hits : List Hit) : Frame :=
  ⟨"score" :: dedupFirst (hits.flatMap fun h => h.src.map Prod.fst),
   hits.map fun h => ⟨h.id, h.score, h.src⟩⟩

/-- The result of `ES_Query`: one of the sentinel strings (`"No name
supplied"`, `"No match found"`) or a candidate frame. -/
inductive ESRet where
  | strRet (s : PyStr)
  | frame (f : Frame)
deriving DecidableEq

/-- The geographic filter argument: a `[top_left, bottom_right]` coordinate
list, or a free-text location string to be resolved by `get_bounds`.  (A
structured `dict` query behaves like the text case up to `get_bounds`'s raw
string handling and is not separately modelled; no claim concerns it.) -/
inductive Boundary where
  | coords (tl br : ℚ × ℚ)
  | text (s : PyStr)
deriving DecidableEq

/-- `df["alsoKnownAs"] = [""]` on a frame known to have exactly one row. -/
def forceAKA (f : Frame) : Frame :=
  ⟨f.cols ++ ["alsoKnownAs"],
   f.rows.map fun r => ⟨r.id, r.score, r.cells ++ [("alsoKnownAs", .s [])]⟩⟩

/-- The part of `ES_Query` from `client.search_template` on: a transport
failure raises `elasticsearch.TransportError`; zero hits return the
`"No match found"` string; otherwise the hits are flattened into a frame
and, when no hit carried an `alsoKnownAs` key, the source executes
`results["alsoKnownAs"] = [""]` — assigning a length-1 list, which pandas
accepts only when the frame has exactly one row and otherwise raises
`ValueError` (length mismatch). -/
def runSearch (resp : Except Unit (List Hit)) : Except PyErr ESRet :=
  match resp with
  | .error _ => .error .transportError
  | .ok hits =>
    if hits.length = 0 then .ok (.strRet (strCodes ("No match found")))
    else
      let f := buildFrame hits
      if "alsoKnownAs" ∈ f.cols then .ok (.frame f)
      else if f.rows.length = 1 then .ok (.frame (forceAKA f))
      else .error .valueError

/-- `ES_Query(client, namestring, postcode, boundaries, polygon)`.
`resp` is the Elasticsearch response for this call's single
`search_template` invocation; a `namestring` of `None` returns the
`"No name supplied"` string before any index call (the result is therefore
independent of `resp`).  The postcode is normalised and reverse-geocoded
(both can raise on a non-string), then exactly one search is issued along
the polygon > boundaries > postcode > name-only precedence; only the
boundaries-as-text branch can raise further (via `get_bounds`). -/
def ES_Query (env : Env) (resp : Except Unit (List Hit)) (ns : Option PyStr)
    (pc : PyVal) (bd : Option Boundary) (pg : Option (List (ℚ × ℚ))) :
    Except PyErr ESRet :=
  match ns with
  | none => .ok (.strRet (strCodes ("No name supplied")))
  | some _ =>
    match normalize_postalcode pc with
    | .error e => .error e
    | .ok pcN =>
      match get_geocode env pcN with
      | .error e => .error e
      | .ok _geo =>
        match pg with
        | some _ => runSearch resp
        | none =>
          match bd with
          | some (.text s) =>
            match get_bounds env s with
            | .error _e => .error _e
            | .ok _box => runSearch resp
          | some (.coords _ _) => runSearch resp
          | none => runSearch resp

/-! ## Confidence scoring -/

/-- Mean of a list of rationals. -/
def meanQ (xs : List ℚ) : ℚ := xs.sum / xs.length

/-- Population variance (`ddof = 0`), as `scipy.stats.zscore` uses. -/
def popVar (xs : List ℚ) : ℚ :=
  ((xs.map fun x => (x - meanQ xs) ^ 2).sum) / xs.length

/-- Model of `scipy.stats.zscore`: each value's deviation from the mean
divided by the population standard deviation.  The true standard deviation
`√popVar` is irrational in general; the model divides by `popVar` instead,
which is zero exactly when the standard deviation is zero — the only
property any consumer of the z column depends on (no claim inspects the
magnitude of a finite z value).  When the divisor is zero every numerator
`x - meanQ xs` is zero as well (`popVar_eq_zero_mean`), so the IEEE
division yields `0/0 = NaN`, recorded as `.nan`. -/
def zscoreM (xs : List ℚ) : List PyFloat :=
  xs.map fun x =>
    if popVar xs = 0 then .nan else .val ((x - meanQ xs) / popVar xs)

/-- `abs(z) / thresh * 100` with `thresh = 3.5`, propagating `NaN`. -/
def pyAbsScale : PyFloat → PyFloat
  | .nan => .nan
  | .val q => .val (|q| / (7 / 2) * 100)

/-- The per-candidate confidence values `abs(stats.zscore(points.score)) /
thresh * 100`. -/
def confVals (xs : List ℚ) : List PyFloat := (zscoreM xs).map pyAbsScale

/-- `get_confidence(points)`: a single row receives the sentinel string
`"Sole Return Before Clustering"`; otherwise the z column holds the scaled
absolute z-scores (all `NaN` for a zero-variance set). -/
def get_confidence (f : Frame) : Frame :=
  if f.rows.length = 1 then
    setColScalar f "z" (.s (strCodes ("Sole Return Before Clustering")))
  else
    ⟨addColName f.cols "z",
     List.zipWith (fun r z => ⟨r.id, r.score, upsertCells r.cells "z" (.f z)⟩)
       f.rows (confVals (scoresOf f))⟩

/-! ## Clustering -/

/-- The scores in ascending order. -/
def sortedScores (xs : List ℚ) : List ℚ := List.insertionSort (· ≤ ·) xs

/-- Adjacent pairs of a list. -/
def adjPairs (l : List ℚ) : List (ℚ × ℚ) := l.zip l.tail

/-- The cluster label of value `x` among the one-dimensional data `xs` under
DBSCAN with `min_samples=1` and radius `ε`: with every point a core point,
sklearn's clusters are the connected components of the ε-neighbourhood
graph, which in one dimension are the maximal runs of sorted values whose
consecutive gaps are ≤ ε.  The label is the number of gaps exceeding ε that
lie at or below `x`, so two values share a label exactly when they share a
component.  (sklearn numbers components in order of first visit; only label
equality is ever consumed, and that agrees.) -/
def blockIdx (xs : List ℚ) (ε : ℚ) (x : ℚ) : ℤ :=
  ((adjPairs (sortedScores xs)).filter fun p =>
    decide (p.2 ≤ x ∧ ε < p.2 - p.1)).length

/-- `DBSCAN(min_samples=1, eps=ε).fit_predict` on the score column. -/
def dbscanLabels (xs : List ℚ) (ε : ℚ) : List ℤ :=
  xs.map (blockIdx xs ε)

/-- `get_cluster(results, epsilon)`: concatenate the `clusters` label column
computed from column 0 (the scores). -/
def get_cluster (ε : ℚ) (f : Frame) : Frame :=
  ⟨addColName f.cols "clusters",
   List.zipWith (fun r l => ⟨r.id, r.score, upsertCells r.cells "clusters" (.i l)⟩)
     f.rows (dbscanLabels (scoresOf f) ε)⟩

/-! ## WB_Match pipeline -/

/-- The retry loop of `WB_Match` over the listed attempt outcomes: a
successful `ES_Query` breaks with its value; `elasticsearch.TransportError`
is caught and the loop continues; any other exception propagates.  If every
attempt raised `TransportError` the loop ends with the local `results`
never assigned (`.ok none`). -/
def retrySeq : List (Except PyErr ESRet) → Except PyErr (Option ESRet)
  | [] => .ok none
  | a :: rest =>
    match a with
    | .ok r => .ok (some r)
    | .error .transportError => retrySeq rest
    | .error e => .error e

/-- `for attempts in range(0, 3): ...` — the bounded retry over the first
three attempt outcomes. -/
def runAttempts (att : ℕ → Except PyErr ESRet) : Except PyErr (Option ESRet) :=
  retrySeq [att 0, att 1, att 2]

/-- `normalize_postalcode(row["postalCode"])` applied to one cell: a string
cell is normalised, a float (`NaN`) or `None` cell becomes `None`, any
other object raises `AttributeError`. -/
def normCell : CellVal → Except PyErr CellVal
  | .s u => .ok (.s (normPC u))
  | .f _ => .ok .pyNone
  | .pyNone => .ok .pyNone
  | .i _ => .error .attributeError

/-- Row-wise postal-code normalisation for
`results.apply(lambda row: normalize_postalcode(row["postalCode"]), axis=1)`. -/
def normRows : List FRow → Except PyErr (List FRow)
  | [] => .ok []
  | r :: rest =>
    match normCell (getCellR r "postalCode") with
    | .error e => .error e
    | .ok v =>
      match normRows rest with
      | .error e => .error e
      | .ok rs => .ok (⟨r.id, r.score, upsertCells r.cells "postalCode" v⟩ :: rs)

/-- `results["postalCode"] = results.apply(...)`: on a non-empty frame a
missing `postalCode` column makes `row["postalCode"]` raise `KeyError`. -/
def normalizePostalColumn (f : Frame) : Except PyErr Frame :=
  if f.rows.length ≠ 0 ∧ "postalCode" ∉ f.cols then .error .keyError
  else
    match normRows f.rows with
    | .error e => .error e
    | .ok rs => .ok ⟨addColName f.cols "postalCode", rs⟩

/-- The postal-filter / scoring stage of `WB_Match` (lines after the
`isinstance` check): with a normalised input postcode, normalise the
candidates' postal codes, keep exact matches, and score with
`get_confidence` when more than one candidate remains (otherwise assign the
`"Sole Postal Code"` sentinel); without a postcode, score directly. -/
def postalFiltered (pcs : PyStr) (f' : Frame) : Frame :=
  filterRows (fun r => decide (getCellR r "postalCode" = .s pcs)) f'

def postalScoreStage (pcN : Option PyStr) (f : Frame) : Except PyErr Frame :=
  match pcN with
  | none => .ok (get_confidence f)
  | some pcs =>
    match normalizePostalColumn f with
    | .error e => .error e
    | .ok f' =>
      if 1 < (postalFiltered pcs f').rows.length then
        .ok (get_confidence (postalFiltered pcs f'))
      else .ok (setColScalar (postalFiltered pcs f') "z" (.s (strCodes ("Sole Postal Code"))))

/-- The string result of `normalize_postalcode` on the caller's postcode
argument, if any (`None` and floats normalise to `None`). -/
def asStr : PyVal → Option PyStr
  | .strV s => some s
  | _ => none

/-- The clustering gate (`if len(results.index) > 1:` block): with more than
one candidate, cluster the scores, read the cluster labels of the top-score
rows (`targetcluster`), and abort with no result unless exactly one row
carries `targetcluster[0]`; one candidate or fewer passes through
unclustered. -/
def clusterGate (ε : ℚ) (fz : Frame) : Except PyErr (Option Frame) :=
  if 1 < fz.rows.length then
    match ((get_cluster ε fz).rows.filter fun r =>
        decide (r.score = maxScoreOf (get_cluster ε fz))).map
        (fun r => getCellR r "clusters") with
    | [] => .error .indexError
    | t :: _ =>
      if ((get_cluster ε fz).rows.filter fun r =>
          decide (getCellR r "clusters" = t)).length ≠ 1
      then .ok none
      else .ok (some (get_cluster ε fz))
  else .ok (some fz)

/-- String conversion `str(x)` of a cell value, as used for the output
fields.  Rational and integer representations are crude stand-ins for
Python's numeric formatting; they feed only the opaque `fuzzPartial`
parameter and the joined `alsoKnownAs` output, which no claim inspects. -/
def strOfCell : CellVal → PyStr
  | .s v => v
  | .f .nan => strCodes ("nan")
  | .f (.val q) => strCodes (toString q)
  | .pyNone => strCodes ("None")
  | .i n => strCodes (toString n)

/-- `','.join(map(str, ALSO))`. -/
def joinComma (l : List PyStr) : PyStr := List.intercalate [44] l

/-- The combined-confidence computation: `if type(CONF) == float: CC =
(LEV+CONF)/2 else: CC = LEV`.  A float confidence (including `NaN`) is
averaged with the integer Levenshtein score; a sentinel string leaves the
Levenshtein score alone (an `int`). -/
def ccOf (lev : ℕ) : CellVal → CellVal
  | .f (.val q) => .f (.val ((lev + q) / 2))
  | .f .nan => .f .nan
  | _ => .i lev

/-- One comparison source of the `ComparisonDictionary`: a scalar already
extracted from the selected row (`DENOM`, `PC`) or a whole column of the
subset frame (a pandas Series). -/
inductive CompVal where
  | scalar (s : PyStr)
  | series (col : List CellVal)
deriving DecidableEq

/-- A diagnostic output entry: a scalar boolean, a Series of booleans, or a
caller value passed through unchanged (empty expected values are skipped). -/
inductive DiagEntry where
  | scalarB (b : Bool)
  | seriesB (bs : List Bool)
  | passthrough (v : PyStr)
deriving DecidableEq

/-- Python `cell == string` for one cell: only an equal string compares
true; `NaN`, `None` and numbers compare false. -/
def cellEqStr (c : CellVal) (v : PyStr) : Bool :=
  match c with
  | .s u => decide (u = v)
  | _ => false

/-- `ComparisonDictionary[i] == DiagnosticDictionary[i]`. -/
def compareVal : CompVal → PyStr → DiagEntry
  | .scalar s, v => .scalarB (decide (s = v))
  | .series col, v => .seriesB (col.map fun c => cellEqStr c v)

/-- Association-list lookup on `PyStr` keys. -/
def lookupP {α : Type} : List (PyStr × α) → PyStr → Option α
  | [], _ => none
  | (k, w) :: rest, c => if k = c then some w else lookupP rest c

/-- The `ComparisonDictionary` of `WB_Match`, built eagerly from the
selected-candidate frame: the six tag columns are read with `results[...]`
whether or not the caller asked for them. -/
def comparisonDict (fm : Frame) (dn pcs : PyStr) : List (PyStr × CompVal) :=
  [(strCodes ("DenomBool"), .scalar dn),
   (strCodes ("PostBool"), .scalar pcs),
   (strCodes ("FaithBool"), .series (fm.rows.map fun r => getCellR r "faith")),
   (strCodes ("AgeBool"), .series (fm.rows.map fun r => getCellR r "tags.age")),
   (strCodes ("CategoryBool"), .series (fm.rows.map fun r => getCellR r "tags.category")),
   (strCodes ("CultureBool"), .series (fm.rows.map fun r => getCellR r "tags.culture")),
   (strCodes ("FaithstreamBool"), .series (fm.rows.map fun r => getCellR r "tags.faithstream")),
   (strCodes ("LanguageBool"), .series (fm.rows.map fun r => getCellR r "tags.language"))]

/-- The loop `for i in DiagnosticDictionary.keys(): ...`, in insertion
order: an entry with a non-empty expected value is replaced by the boolean
comparison — looking its key up in the `ComparisonDictionary`, which raises
`KeyError` for a key outside the eight supported names — and every entry's
(possibly replaced) value is appended to the output. -/
def diagLoop (cd : List (PyStr × CompVal)) :
    List (PyStr × PyStr) → List DiagEntry → Except PyErr (List DiagEntry)
  | [], acc => .ok acc
  | (k, v) :: rest, acc =>
    if v = [] then diagLoop cd rest (acc ++ [.passthrough v])
    else
      match lookupP cd k with
      | none => .error .keyError
      | some cv => diagLoop cd rest (acc ++ [compareVal cv v])

/-- The eight supported `DiagnosticDictionary` key names. -/
def diagKeys : List PyStr :=
  [strCodes ("DenomBool"), strCodes ("PostBool"), strCodes ("FaithBool"),
   strCodes ("AgeBool"), strCodes ("CategoryBool"), strCodes ("CultureBool"),
   strCodes ("FaithstreamBool"), strCodes ("LanguageBool")]

/-- The six frame columns the `ComparisonDictionary` reads eagerly. -/
def diagCols : List String :=
  ["faith", "tags.age", "tags.category", "tags.culture", "tags.faithstream",
   "tags.language"]

/-- The diagnostic stage: nothing without a `DiagnosticDictionary`; with
one, the `ComparisonDictionary` construction reads the six tag columns
eagerly (raising `KeyError` if any is absent from the frame) before the
loop runs. -/
def diagStage (fm : Frame) (dn pcs : PyStr) :
    Option (List (PyStr × PyStr)) → Except PyErr (List DiagEntry)
  | none => .ok []
  | some entries =>
    if ∀ c ∈ diagCols, c ∈ fm.cols then
      diagLoop (comparisonDict fm dn pcs) entries []
    else .error .keyError

/-- The output record `[ID, CONF, NAME, ALSO, LOC, PC, DENOM, LEV, CC]`
plus the optional diagnostic appendix. -/
structure Output where
  outID : String
  outCONF : CellVal
  outNAME : PyStr
  outALSO : PyStr
  outLOC : PyStr
  outPC : PyStr
  outDENOM : PyStr
  outLEV : ℕ
  outCC : CellVal
  outDiag : List DiagEntry
deriving DecidableEq

/-- The selection/finalisation tail of `WB_Match` (from `results =
results[results["score"] == results["score"].max()]`): subset to the
top-score rows, extract the output fields from index 0 (attribute-style
column access raises `AttributeError` on a missing column,
`results['tags.denomination']` raises `KeyError`), join all `alsoKnownAs`
values with commas, compute the fuzzy name similarity `LEV`, the combined
confidence, and the optional diagnostics. -/
def alsoOf (fm : Frame) : PyStr :=
  joinComma ((fm.rows.map fun r => getCellR r "alsoKnownAs").map strOfCell)

def levOf (env : Env) (nsv nameS alsoS : PyStr) : ℕ :=
  max (env.fuzzPartial (pyLowerS nsv) (pyLowerS nameS))
    (env.fuzzPartial (pyLowerS nsv) (pyLowerS alsoS))

def selectFinalize (env : Env) (ns : Option PyStr)
    (dd : Option (List (PyStr × PyStr))) (f2 : Frame) : Except PyErr Output :=
  match (filterMax f2).rows with
  | [] => .error .indexError
  | r0 :: _ =>
    if "z" ∉ (filterMax f2).cols then .error .attributeError
    else if "name" ∉ (filterMax f2).cols then .error .attributeError
    else if "alsoKnownAs" ∉ (filterMax f2).cols then .error .attributeError
    else if "locality" ∉ (filterMax f2).cols then .error .attributeError
    else if "postalCode" ∉ (filterMax f2).cols then .error .attributeError
    else if "tags.denomination" ∉ (filterMax f2).cols then .error .keyError
    else
      match ns with
      | none => .error .attributeError
      | some nsv =>
        match diagStage (filterMax f2) (strOfCell (getCellR r0 "tags.denomination"))
            (strOfCell (getCellR r0 "postalCode")) dd with
        | .error e => .error e
        | .ok dl =>
          .ok ⟨r0.id, getCellR r0 "z", strOfCell (getCellR r0 "name"),
            alsoOf (filterMax f2), strOfCell (getCellR r0 "locality"),
            strOfCell (getCellR r0 "postalCode"),
            strOfCell (getCellR r0 "tags.denomination"),
            levOf env nsv (strOfCell (getCellR r0 "name")) (alsoOf (filterMax f2)),
            ccOf (levOf env nsv (strOfCell (getCellR r0 "name")) (alsoOf (filterMax f2)))
              (getCellR r0 "z"), dl⟩

/-- Lines 536–549 of the source: the clustering gate, then the `len == 0`
guard, then selection/finalisation. -/
def afterScoring (env : Env) (ns : Option PyStr)
    (dd : Option (List (PyStr × PyStr))) (ε : ℚ) (fz : Frame) :
    Except PyErr (Option Output) :=
  match clusterGate ε fz with
  | .error e => .error e
  | .ok none => .ok none
  | .ok (some f2) =>
    if f2.rows.length = 0 then .ok none
    else
      match selectFinalize env ns dd f2 with
      | .error e => .error e
      | .ok out => .ok (some out)

/-- The querying, postal-filtering and scoring prefix of `WB_Match`: run the
retry loop (a loop that exhausts all attempts leaves the local `results`
unbound, so the following `isinstance` check raises `UnboundLocalError`); a
non-frame result returns `None` (`.ok none`); otherwise normalise the input
postcode and run the postal-filter/scoring stage. -/
def queryAndScore (env : Env) (resp : ℕ → Except Unit (List Hit))
    (ns : Option PyStr) (pc : PyVal) (bd : Option Boundary)
    (pg : Option (List (ℚ × ℚ))) : Except PyErr (Option Frame) :=
  match runAttempts (fun i => ES_Query env (resp i) ns pc bd pg) with
  | .error e => .error e
  | .ok none => .error .unboundLocal
  | .ok (some (.strRet _)) => .ok none
  | .ok (some (.frame f)) =>
    match normalize_postalcode pc with
    | .error e => .error e
    | .ok pcN =>
      match postalScoreStage (asStr pcN) f with
      | .error e => .error e
      | .ok fz => .ok (some fz)

/-- `WB_Match(client, namestring, postcode, boundaries, polygon,
DiagnosticDictionary, epsilon)`.  `resp i` is the Elasticsearch response
the client would return on attempt `i` of the retry loop.  `.ok none` is
the uniform no-result signal (Python `return` / `return None`); `.error e`
is an uncaught exception. -/
def WB_Match (env : Env) (resp : ℕ → Except Unit (List Hit))
    (ns : Option PyStr) (pc : PyVal) (bd : Option Boundary)
    (pg : Option (List (ℚ × ℚ))) (dd : Option (List (PyStr × PyStr)))
    (ε : ℚ) : Except PyErr (Option Output) :=
  match queryAndScore env resp ns pc bd pg with
  | .error e => .error e
  | .ok none => .ok none
  | .ok (some fz) => afterScoring env ns dd ε fz

/-- The size of the cluster containing the maximum-score candidate, stated
independently of the code's `targetcluster` computation: the number of rows
whose score lies in the same DBSCAN component as the maximum score. -/
def maxClusterSize (fz : Frame) (ε : ℚ) : ℕ :=
  (fz.rows.filter fun r =>
    decide (blockIdx (scoresOf fz) ε r.score =
      blockIdx (scoresOf fz) ε (maxScoreOf fz))).length

/-! ## Concrete data for witnesses and counterexamples -/

/-- A concrete environment: the geocoder always misses, the offline postal
lookup knows nothing, and the fuzzy partial ratio is the constant 80. -/
def envW : Env := ⟨fun _ => none, fun _ => (.nan, .nan), fun _ _ => 80⟩

/-- A hit with score 10 carrying every column the finalisation stage reads. -/
def hitA : Hit := ⟨"id1", 10,
  [("name", .s (strCodes ("Alpha Church"))),
   ("alsoKnownAs", .s (strCodes ("Alpha"))),
   ("locality", .s (strCodes ("Ottawa"))),
   ("postalCode", .s (strCodes ("A1A 1A1"))),
   ("tags.denomination", .s (strCodes ("Anglican")))]⟩

/-- A hit with score 90 carrying every column the finalisation stage reads. -/
def hitB : Hit := ⟨"id2", 90,
  [("name", .s (strCodes ("Beta Church"))),
   ("alsoKnownAs", .s (strCodes ("Beta"))),
   ("locality", .s (strCodes ("Toronto"))),
   ("postalCode", .s (strCodes ("B2B 2B2"))),
   ("tags.denomination", .s (strCodes ("Baptist")))]⟩

/-- `hitA`'s document with score 50. -/
def hitC50 : Hit := ⟨"ida", 50, hitA.src⟩

/-- `hitB`'s document with score 51. -/
def hitC51 : Hit := ⟨"idb", 51, hitB.src⟩

/-- A hit whose `_source` omits `alsoKnownAs`, score 50. -/
def hitNoAka1 : Hit := ⟨"na1", 50, [("name", .s (strCodes ("A")))]⟩

/-- A second hit whose `_source` omits `alsoKnownAs`, score 51. -/
def hitNoAka2 : Hit := ⟨"na2", 51, [("name", .s (strCodes ("B")))]⟩

/-- A two-candidate frame with identical scores (zero variance). -/
def frC6 : Frame := ⟨["score"], [⟨"a", 50, []⟩, ⟨"b", 50, []⟩]⟩

/-- The response delivering the two close-scored candidates (50 and 51) on
every attempt. -/
def respC1 : ℕ → Except Unit (List Hit) := fun _ => .ok [hitC50, hitC51]

/-- The scored frame the pipeline prefix produces for `respC1`. -/
def fzC1 : Frame :=
  match queryAndScore envW respC1 (some (strCodes ("Beta"))) .noneV none none with
  | .ok (some fr) => fr
  | _ => ⟨[], []⟩

/-- The response delivering the well-separated candidates (10 and 90) on
every attempt. -/
def respC3 : ℕ → Except Unit (List Hit) := fun _ => .ok [hitA, hitB]

/-- The match result `WB_Match` produces for `respC3`. -/
def outW3 : Output :=
  match WB_Match envW respC3 (some (strCodes ("Beta"))) .noneV none none none 4 with
  | .ok (some o) => o
  | _ => ⟨"", .pyNone, [], [], [], [], [], 0, .pyNone, []⟩

/-- The response delivering the single full-column candidate `hitA`. -/
def respC10 : ℕ → Except Unit (List Hit) := fun _ => .ok [hitA]

/-- The match result `WB_Match` produces for `respC10` without diagnostics. -/
def outW10 : Output :=
  match WB_Match envW respC10 (some (strCodes ("Alpha"))) .noneV none none none 4 with
  | .ok (some o) => o
  | _ => ⟨"", .pyNone, [], [], [], [], [], 0, .pyNone, []⟩

/-- A one-entry diagnostic dictionary using only a supported key. -/
def entriesW10 : List (PyStr × PyStr) := [(strCodes ("DenomBool"), strCodes ("Anglican"))]

section NormalizeLemmas

theorem pyUpperN_idem (n : ℕ) : pyUpperN (pyUpperN n) = pyUpperN n := by
  unfold pyUpperN
  split_ifs <;> omega

theorem pyUpperN_eq_32 {n : ℕ} (h : pyUpperN n = 32) : n = 32 := by
  unfold pyUpperN at h
  split_ifs at h <;> omega

theorem lstripSpace_head {s : PyStr} :
    lstripSpace s = [] ∨ ∃ c cs, lstripSpace s = c :: cs ∧ c ≠ 32 := by
  induction s with
  | nil => exact Or.inl rfl
  | cons c cs ih =>
      by_cases h : c = 32
      · simpa [lstripSpace, h] using ih
      · exact Or.inr ⟨c, cs, by simp [lstripSpace, h], h⟩

theorem lstripSpace_of_head_ne {c : ℕ} {cs : PyStr} (h : c ≠ 32) :
    lstripSpace (c :: cs) = c :: cs := by
  simp [lstripSpace, h]

/-- The output of `normPC` never has length 6: a length-6 input grows to 7 by
the space insertion, and any other length is preserved. -/
theorem normPC_length_ne_six (s : PyStr) : (normPC s).length ≠ 6 := by
  unfold normPC pyUpperS
  by_cases h : (lstripSpace s).length = 6
  · simp [h]
  · simp [h]

/-- The output of `normPC` never starts with a space. -/
theorem normPC_head_ne_space (s : PyStr) :
    normPC s = [] ∨ ∃ c cs, normPC s = c :: cs ∧ c ≠ 32 := by
  unfold normPC
  rcases lstripSpace_head (s := s) with h | ⟨c, cs, h, hc⟩
  · simp [h, pyUpperS]
  · rw [h]
    by_cases h6 : (c :: cs : PyStr).length = 6
    · rw [if_pos h6]
      refine Or.inr ⟨pyUpperN c, (cs.take 2 ++ 32 :: cs.drop 2).map pyUpperN,
        ?_, fun hq => hc (pyUpperN_eq_32 hq)⟩
      simp [pyUpperS]
    · rw [if_neg h6]
      exact Or.inr ⟨pyUpperN c, cs.map pyUpperN, by simp [pyUpperS],
        fun hq => hc (pyUpperN_eq_32 hq)⟩

theorem pyUpperS_idem (s : PyStr) : pyUpperS (pyUpperS s) = pyUpperS s := by
  unfold pyUpperS
  rw [List.map_map]
  exact List.map_congr_left fun a _ => pyUpperN_idem a

theorem pyUpperS_normPC (s : PyStr) : pyUpperS (normPC s) = normPC s := by
  unfold normPC
  exact pyUpperS_idem _

/-- Applying the string transformation of `normalize_postalcode` twice gives
the same result as applying it once. -/
theorem normPC_self (s : PyStr) : normPC (normPC s) = normPC s := by
  have hl : lstripSpace (normPC s) = normPC s := by
    rcases normPC_head_ne_space s with h | ⟨c, cs, h, hc⟩
    · rw [h]; rfl
    · rw [h]; exact lstripSpace_of_head_ne hc
  show pyUpperS (if (lstripSpace (normPC s)).length = 6
      then (lstripSpace (normPC s)).take 3 ++ 32 :: (lstripSpace (normPC s)).drop 3
      else lstripSpace (normPC s)) = normPC s
  rw [hl, if_neg (normPC_length_ne_six s)]
  exact pyUpperS_normPC s

end NormalizeLemmas

section ListFrameLemmas

theorem zipWith_map_self {α β γ : Type} (g : α → β → γ) (h : α → β) :
    ∀ l : List α, List.zipWith g l (l.map h) = l.map fun a => g a (h a)
  | [] => rfl
  | a :: l => by
    simp only [List.map_cons, List.zipWith_cons_cons, List.map]
    exact congrArg _ (zipWith_map_self g h l)

theorem filter_map_comm {α β : Type} (g : α → β) (p : β → Bool) :
    ∀ l : List α, (l.map g).filter p = (l.filter fun a => p (g a)).map g
  | [] => rfl
  | a :: l => by
    by_cases hp : p (g a)
    · simp only [List.map_cons, List.filter_cons, hp, if_pos, List.map]
      exact congrArg _ (filter_map_comm g p l)
    · simp only [List.map_cons, List.filter_cons, hp]
      exact filter_map_comm g p l

theorem foldl_max_mem : ∀ (xs : List ℚ) (x : ℚ), xs.foldl max x ∈ x :: xs
  | [], x => by simp
  | c :: cs, x => by
    have h := List.mem_cons.mp (foldl_max_mem cs (max x c))
    rw [List.foldl_cons]
    rcases h with h | h
    · rw [h]
      rcases max_choice x c with hm | hm
      · rw [hm]; exact List.mem_cons_self _ _
      · rw [hm]; exact List.mem_cons_of_mem _ (List.mem_cons_self _ _)
    · exact List.mem_cons_of_mem _ (List.mem_cons_of_mem _ h)

theorem maxQ_mem {xs : List ℚ} (h : xs ≠ []) : maxQ xs ∈ xs := by
  cases xs with
  | nil => exact absurd rfl h
  | cons x l => exact foldl_max_mem l x

theorem lookupCell_upsert_self :
    ∀ (cells : List (String × CellVal)) (c : String) (v : CellVal),
      lookupCell (upsertCells cells c v) c = some v
  | [], c, v => by simp [upsertCells, lookupCell]
  | (k, w) :: rest, c, v => by
    unfold upsertCells
    by_cases hk : k = c
    · simp [hk, lookupCell]
    · rw [if_neg hk]
      unfold lookupCell
      rw [if_neg hk]
      exact lookupCell_upsert_self rest c v

theorem getCellR_upsert_self (i : String) (sc : ℚ) (cells : List (String × CellVal))
    (c : String) (v : CellVal) (hc : c ≠ "score") :
    getCellR ⟨i, sc, upsertCells cells c v⟩ c = v := by
  simp [getCellR, hc, lookupCell_upsert_self]

theorem mem_addColName {c c' : String} {cols : List String} :
    c ∈ addColName cols c' ↔ c ∈ cols ∨ c = c' := by
  unfold addColName
  by_cases h : c' ∈ cols
  · simp only [h, if_pos]
    constructor
    · exact Or.inl
    · rintro (hc | hc)
      · exact hc
      · rw [hc]; exact h
  · simp [h]

theorem scoresOf_get_cluster (ε : ℚ) (f : Frame) :
    scoresOf (get_cluster ε f) = scoresOf f := by
  unfold scoresOf get_cluster dbscanLabels
  show (List.zipWith _ f.rows ((scoresOf f).map (blockIdx (scoresOf f) ε))).map _ = _
  unfold scoresOf
  rw [List.map_map, zipWith_map_self, List.map_map]
  rfl

theorem get_cluster_rows (ε : ℚ) (f : Frame) :
    (get_cluster ε f).rows = f.rows.map fun r =>
      ⟨r.id, r.score, upsertCells r.cells "clusters"
        (.i (blockIdx (scoresOf f) ε r.score))⟩ := by
  unfold get_cluster dbscanLabels
  show List.zipWith _ f.rows ((scoresOf f).map (blockIdx (scoresOf f) ε)) = _
  unfold scoresOf
  rw [List.map_map, zipWith_map_self]
  rfl

end ListFrameLemmas

section ConfidenceLemmas

theorem meanQ_all_eq {xs : List ℚ} {c : ℚ} (hne : xs ≠ []) (h : ∀ x ∈ xs, x = c) :
    meanQ xs = c := by
  unfold meanQ
  rw [List.sum_eq_card_nsmul xs c h, nsmul_eq_mul]
  have hlen : (xs.length : ℚ) ≠ 0 :=
    Nat.cast_ne_zero.mpr fun h0 => hne (List.length_eq_zero.mp h0)
  field_simp

theorem popVar_all_eq {xs : List ℚ} {c : ℚ} (hne : xs ≠ []) (h : ∀ x ∈ xs, x = c) :
    popVar xs = 0 := by
  unfold popVar
  have : (xs.map fun x => (x - meanQ xs) ^ 2) = xs.map fun _ => 0 := by
    apply List.map_congr_left
    intro a ha
    rw [h a ha, meanQ_all_eq hne h, sub_self]
    ring
  rw [this]
  simp

theorem confVals_all_nan {xs : List ℚ} (hv : popVar xs = 0) :
    confVals xs = xs.map fun _ => PyFloat.nan := by
  unfold confVals zscoreM
  rw [List.map_map]
  apply List.map_congr_left
  intro a _
  simp [hv, pyAbsScale]

end ConfidenceLemmas

section PipelineLemmas

theorem setColScalar_cols (f : Frame) (c : String) (v : CellVal) :
    (setColScalar f c v).cols = addColName f.cols c := rfl

theorem get_confidence_cols (f : Frame) :
    (get_confidence f).cols = addColName f.cols "z" := by
  unfold get_confidence
  split <;> rfl

theorem normalizePostalColumn_cols {f f' : Frame}
    (h : normalizePostalColumn f = .ok f') :
    f'.cols = addColName f.cols "postalCode" := by
  unfold normalizePostalColumn at h
  split at h
  · exact Except.noConfusion h
  · split at h
    · exact Except.noConfusion h
    · injection h with h1
      rw [← h1]

theorem postalScoreStage_cols {pcN : Option PyStr} {f fz : Frame}
    (h : postalScoreStage pcN f = .ok fz) :
    ∀ c, c ∈ fz.cols → c ∈ f.cols ∨ c = "z" ∨ c = "postalCode" := by
  unfold postalScoreStage at h
  split at h
  · injection h with h1
    intro c hc
    rw [← h1, get_confidence_cols] at hc
    rcases mem_addColName.mp hc with hc | hc
    · exact Or.inl hc
    · exact Or.inr (Or.inl hc)
  · rename_i pcs
    split at h
    · exact Except.noConfusion h
    · rename_i f' hnorm
      split at h <;> injection h with h1 <;> intro c hc
      · rw [← h1, get_confidence_cols] at hc
        rcases mem_addColName.mp hc with hc | hc
        · rw [show (postalFiltered pcs f').cols = f'.cols from rfl,
            normalizePostalColumn_cols hnorm] at hc
          rcases mem_addColName.mp hc with hc | hc
          · exact Or.inl hc
          · exact Or.inr (Or.inr hc)
        · exact Or.inr (Or.inl hc)
      · rw [← h1, setColScalar_cols] at hc
        rcases mem_addColName.mp hc with hc | hc
        · rw [show (postalFiltered pcs f').cols = f'.cols from rfl,
            normalizePostalColumn_cols hnorm] at hc
          rcases mem_addColName.mp hc with hc | hc
          · exact Or.inl hc
          · exact Or.inr (Or.inr hc)
        · exact Or.inr (Or.inl hc)

theorem clusterGate_cols {ε : ℚ} {fz f2 : Frame}
    (h : clusterGate ε fz = .ok (some f2)) :
    ∀ c, c ∈ f2.cols → c ∈ fz.cols ∨ c = "clusters" := by
  unfold clusterGate at h
  split at h
  · split at h
    · exact Except.noConfusion h
    · split at h
      · simp at h
      · injection h with h1
        injection h1 with h2
        intro c hc
        rw [← h2] at hc
        exact mem_addColName.mp hc
  · injection h with h1
    injection h1 with h2
    intro c hc
    rw [← h2] at hc
    exact Or.inl hc

theorem queryAndScore_cols {env : Env} {resp : ℕ → Except Unit (List Hit)}
    {ns : Option PyStr} {pc : PyVal} {bd : Option Boundary}
    {pg : Option (List (ℚ × ℚ))} {f : Frame} {fz : Frame}
    (hf : runAttempts (fun i => ES_Query env (resp i) ns pc bd pg) =
      .ok (some (.frame f)))
    (hq : queryAndScore env resp ns pc bd pg = .ok (some fz)) :
    ∀ c, c ∈ fz.cols → c ∈ f.cols ∨ c = "z" ∨ c = "postalCode" := by
  unfold queryAndScore at hq
  simp only [hf] at hq
  split at hq
  · exact Except.noConfusion hq
  · split at hq
    · exact Except.noConfusion hq
    · injection hq with h1
      injection h1 with h2
      rename_i fz' hstage
      rw [h2] at hstage
      exact postalScoreStage_cols hstage

theorem WB_Match_ok_some {env : Env} {resp : ℕ → Except Unit (List Hit)}
    {ns : Option PyStr} {pc : PyVal} {bd : Option Boundary}
    {pg : Option (List (ℚ × ℚ))} {dd : Option (List (PyStr × PyStr))} {ε : ℚ}
    {out : Output}
    (h : WB_Match env resp ns pc bd pg dd ε = .ok (some out)) :
    ∃ f2, selectFinalize env ns dd f2 = .ok out := by
  unfold WB_Match at h
  split at h
  · exact Except.noConfusion h
  · simp at h
  · unfold afterScoring at h
    split at h
    · exact Except.noConfusion h
    · simp at h
    · rename_i f2 _
      split at h
      · simp at h
      · split at h
        · exact Except.noConfusion h
        · rename_i o hsel
          refine ⟨f2, ?_⟩
          rw [hsel]
          injection h with h1
          injection h1 with h2
          rw [h2]

theorem selectFinalize_cc {env : Env} {ns : Option PyStr}
    {dd : Option (List (PyStr × PyStr))} {f2 : Frame} {out : Output}
    (h : selectFinalize env ns dd f2 = .ok out) :
    out.outCC = ccOf out.outLEV out.outCONF := by
  unfold selectFinalize at h
  split at h
  · exact Except.noConfusion h
  · split at h
    · exact Except.noConfusion h
    · split at h
      · exact Except.noConfusion h
      · split at h
        · exact Except.noConfusion h
        · split at h
          · exact Except.noConfusion h
          · split at h
            · exact Except.noConfusion h
            · split at h
              · exact Except.noConfusion h
              · split at h
                · exact Except.noConfusion h
                · split at h
                  · exact Except.noConfusion h
                  · injection h with h1
                    rw [← h1]

end PipelineLemmas

section DiagLemmas

theorem lookupP_eq_none {α : Type} :
    ∀ (cd : List (PyStr × α)) (k : PyStr), k ∉ cd.map Prod.fst → lookupP cd k = none
  | [], _, _ => rfl
  | (k', w) :: rest, k, h => by
    simp only [List.map_cons, List.mem_cons, not_or] at h
    unfold lookupP
    rw [if_neg fun he => h.1 he.symm]
    exact lookupP_eq_none rest k h.2

theorem comparisonDict_keys (fm : Frame) (dn pcs : PyStr) :
    (comparisonDict fm dn pcs).map Prod.fst = diagKeys := rfl

theorem diagLoop_bad (cd : List (PyStr × CompVal)) :
    ∀ (entries : List (PyStr × PyStr)) (acc : List DiagEntry),
      (∃ kv ∈ entries, kv.2 ≠ [] ∧ lookupP cd kv.1 = none) →
      diagLoop cd entries acc = .error .keyError := by
  intro entries
  induction entries with
  | nil =>
    rintro acc ⟨kv, hm, -⟩
    exact absurd hm (List.not_mem_nil kv)
  | cons e rest ih =>
    rintro acc ⟨kv, hm, hv, hl⟩
    obtain ⟨k, v⟩ := e
    unfold diagLoop
    by_cases hv0 : v = []
    · rw [if_pos hv0]
      apply ih
      rcases List.mem_cons.mp hm with he | he
      · exact absurd (by rw [he]; exact hv0) hv
      · exact ⟨kv, he, hv, hl⟩
    · rw [if_neg hv0]
      rcases List.mem_cons.mp hm with he | he
      · rw [he] at hl
        rw [hl]
      · cases hlk : lookupP cd k with
        | none => rfl
        | some cv => exact ih _ ⟨kv, he, hv, hl⟩

end DiagLemmas

section ClusterLemmas

theorem maxScoreOf_get_cluster (ε : ℚ) (fz : Frame) :
    maxScoreOf (get_cluster ε fz) = maxScoreOf fz := by
  unfold maxScoreOf
  rw [scoresOf_get_cluster]

theorem getCellR_clusters_upsert (i : String) (sc : ℚ)
    (cells : List (String × CellVal)) (v : CellVal) :
    getCellR ⟨i, sc, upsertCells cells "clusters" v⟩ "clusters" = v :=
  getCellR_upsert_self i sc cells "clusters" v (by decide)

theorem exists_row_max {fz : Frame} (h : fz.rows ≠ []) :
    ∃ r ∈ fz.rows, r.score = maxScoreOf fz := by
  have h1 : maxScoreOf fz ∈ scoresOf fz := by
    apply maxQ_mem
    unfold scoresOf
    simp [h]
  unfold scoresOf at h1
  obtain ⟨r, hr, hs⟩ := List.mem_map.mp h1
  exact ⟨r, hr, hs⟩

theorem clusterGate_spec (ε : ℚ) (fz : Frame) (hlen : 1 < fz.rows.length) :
    clusterGate ε fz =
      if maxClusterSize fz ε ≠ 1 then .ok none
      else .ok (some (get_cluster ε fz)) := by
  have hne : fz.rows ≠ [] := by
    intro h0
    rw [h0] at hlen
    exact absurd hlen (by decide)
  have hmax := maxScoreOf_get_cluster ε fz
  have hrows := get_cluster_rows ε fz
  unfold clusterGate
  rw [if_pos hlen, hmax, hrows, filter_map_comm, List.map_map]
  have hsimp1 : ((fun r => getCellR r "clusters") ∘ fun r : FRow =>
      (⟨r.id, r.score, upsertCells r.cells "clusters"
        (.i (blockIdx (scoresOf fz) ε r.score))⟩ : FRow)) =
      fun r : FRow => CellVal.i (blockIdx (scoresOf fz) ε r.score) := by
    funext r
    exact getCellR_clusters_upsert r.id r.score r.cells _
  rw [hsimp1]
  have hLne : (fz.rows.filter fun r => decide (r.score = maxScoreOf fz)) ≠ [] := by
    obtain ⟨r, hr, hs⟩ := exists_row_max hne
    intro h0
    have : r ∈ fz.rows.filter fun r => decide (r.score = maxScoreOf fz) :=
      List.mem_filter.mpr ⟨hr, by rw [hs]; exact decide_eq_true rfl⟩
    rw [h0] at this
    exact absurd this (List.not_mem_nil r)
  cases hL : (fz.rows.filter fun r => decide (r.score = maxScoreOf fz)).map
      (fun r => CellVal.i (blockIdx (scoresOf fz) ε r.score)) with
  | nil =>
    exact absurd (List.map_eq_nil_iff.mp hL) hLne
  | cons t ts =>
    dsimp only
    have ht : t = CellVal.i (blockIdx (scoresOf fz) ε (maxScoreOf fz)) := by
      have hm : t ∈ (fz.rows.filter fun r => decide (r.score = maxScoreOf fz)).map
          (fun r => CellVal.i (blockIdx (scoresOf fz) ε r.score)) := by
        rw [hL]
        exact List.mem_cons_self t ts
      obtain ⟨r, hr, he⟩ := List.mem_map.mp hm
      have hrs : r.score = maxScoreOf fz :=
        of_decide_eq_true (List.mem_filter.mp hr).2
      rw [← he, hrs]
    have hcount : ((fz.rows.map fun r : FRow =>
        (⟨r.id, r.score, upsertCells r.cells "clusters"
          (.i (blockIdx (scoresOf fz) ε r.score))⟩ : FRow)).filter fun r =>
        decide (getCellR r "clusters" = t)).length = maxClusterSize fz ε := by
      rw [filter_map_comm, List.length_map, ht]
      unfold maxClusterSize
      congr 1
      apply List.filter_congr
      intro r _
      simp only [getCellR_clusters_upsert, CellVal.i.injEq]
    rw [hcount]

end ClusterLemmas

section DiagFinalizeLemmas

theorem diagCols_not_added :
    ∀ c ∈ diagCols, ¬(c = "z" ∨ c = "postalCode" ∨ c = "clusters") := by decide

theorem diagStage_some_keyError (fm : Frame) (dn pcs : PyStr)
    (entries : List (PyStr × PyStr))
    (hbad : (∃ c ∈ diagCols, c ∉ fm.cols) ∨
      ∃ kv ∈ entries, kv.2 ≠ [] ∧ kv.1 ∉ diagKeys) :
    diagStage fm dn pcs (some entries) = .error .keyError := by
  show (if ∀ c ∈ diagCols, c ∈ fm.cols
    then diagLoop (comparisonDict fm dn pcs) entries []
    else Except.error PyErr.keyError) = Except.error PyErr.keyError
  rcases hbad with ⟨c, hcd, hcc⟩ | hkey
  · rw [if_neg fun hall => hcc (hall c hcd)]
  · by_cases hall : ∀ c ∈ diagCols, c ∈ fm.cols
    · rw [if_pos hall]
      apply diagLoop_bad
      obtain ⟨kv, hm, hv, hk⟩ := hkey
      refine ⟨kv, hm, hv, lookupP_eq_none _ _ ?_⟩
      rw [comparisonDict_keys]
      exact hk
    · rw [if_neg hall]

theorem selectFinalize_diag_keyError (env : Env) (ns : Option PyStr)
    (entries : List (PyStr × PyStr)) (f2 : Frame) (o : Output)
    (hsel : selectFinalize env ns none f2 = .ok o)
    (hbad : (∃ c ∈ diagCols, c ∉ f2.cols) ∨
      ∃ kv ∈ entries, kv.2 ≠ [] ∧ kv.1 ∉ diagKeys) :
    selectFinalize env ns (some entries) f2 = .error .keyError := by
  have hbad' : (∃ c ∈ diagCols, c ∉ (filterMax f2).cols) ∨
      ∃ kv ∈ entries, kv.2 ≠ [] ∧ kv.1 ∉ diagKeys := hbad
  unfold selectFinalize at hsel ⊢
  cases hr : (filterMax f2).rows with
  | nil =>
    rw [hr] at hsel
    exact Except.noConfusion hsel
  | cons r0 rest =>
    rw [hr] at hsel
    dsimp only at hsel ⊢
    by_cases h1 : "z" ∉ (filterMax f2).cols
    · rw [if_pos h1] at hsel; exact Except.noConfusion hsel
    · rw [if_neg h1] at hsel ⊢
      by_cases h2 : "name" ∉ (filterMax f2).cols
      · rw [if_pos h2] at hsel; exact Except.noConfusion hsel
      · rw [if_neg h2] at hsel ⊢
        by_cases h3 : "alsoKnownAs" ∉ (filterMax f2).cols
        · rw [if_pos h3] at hsel; exact Except.noConfusion hsel
        · rw [if_neg h3] at hsel ⊢
          by_cases h4 : "locality" ∉ (filterMax f2).cols
          · rw [if_pos h4] at hsel; exact Except.noConfusion hsel
          · rw [if_neg h4] at hsel ⊢
            by_cases h5 : "postalCode" ∉ (filterMax f2).cols
            · rw [if_pos h5] at hsel; exact Except.noConfusion hsel
            · rw [if_neg h5] at hsel ⊢
              by_cases h6 : "tags.denomination" ∉ (filterMax f2).cols
              · rw [if_pos h6] at hsel; exact Except.noConfusion hsel
              · rw [if_neg h6] at hsel ⊢
                cases ns with
                | none => exact Except.noConfusion hsel
                | some nsv =>
                  rw [diagStage_some_keyError (filterMax f2)
                    (strOfCell (getCellR r0 "tags.denomination"))
                    (strOfCell (getCellR r0 "postalCode")) entries hbad']

end DiagFinalizeLemmas

section ClaimTheorems

attribute [local semireducible] Rat.add Rat.sub Rat.mul Rat.inv

/-- Claim C1: for every candidate set with more than one member that
reaches the clustering stage (a scored frame `fz` produced by the
querying/postal-filter/scoring prefix `queryAndScore`), if the DBSCAN
cluster containing the maximum-score candidate has more than one member
then resolution aborts and `WB_Match` returns the no-result signal
(`.ok none`, no `MatchResult`); if that cluster has exactly one member,
resolution proceeds to the selection/finalisation stage on the clustered
frame. -/
theorem C1_cluster_ambiguity_gate (env : Env)
    (resp : ℕ → Except Unit (List Hit)) (ns : Option PyStr) (pc : PyVal)
    (bd : Option Boundary) (pg : Option (List (ℚ × ℚ)))
    (dd : Option (List (PyStr × PyStr))) (ε : ℚ) (fz : Frame)
    (hpipe : queryAndScore env resp ns pc bd pg = .ok (some fz))
    (hlen : 1 < fz.rows.length) :
    (1 < maxClusterSize fz ε →
      WB_Match env resp ns pc bd pg dd ε = .ok none) ∧
    (maxClusterSize fz ε = 1 →
      WB_Match env resp ns pc bd pg dd ε =
        (selectFinalize env ns dd (get_cluster ε fz)).map some) := by
  have hW : WB_Match env resp ns pc bd pg dd ε = afterScoring env ns dd ε fz := by
    unfold WB_Match
    rw [hpipe]
  constructor
  · intro h1
    rw [hW]
    unfold afterScoring
    rw [clusterGate_spec ε fz hlen,
      if_pos (show maxClusterSize fz ε ≠ 1 by omega)]
  · intro h1
    rw [hW]
    unfold afterScoring
    rw [clusterGate_spec ε fz hlen,
      if_neg (show ¬maxClusterSize fz ε ≠ 1 by omega)]
    dsimp only
    have hlen0 : ¬(get_cluster ε fz).rows.length = 0 := by
      rw [get_cluster_rows, List.length_map]
      omega
    rw [if_neg hlen0]
    cases hsel : selectFinalize env ns dd (get_cluster ε fz) <;>
      simp [Except.map]

/-- Witness for C1: scores 50 and 51 with ε = 4 land in one cluster of two
members, so `WB_Match` returns the no-result signal. -/
theorem C1_cluster_ambiguity_gate_witness :
    queryAndScore envW respC1 (some (strCodes ("Beta"))) .noneV none none =
      .ok (some fzC1) ∧
    1 < fzC1.rows.length ∧ 1 < maxClusterSize fzC1 4 ∧
    WB_Match envW respC1 (some (strCodes ("Beta"))) .noneV none none none 4 =
      .ok none :=
  ⟨by decide, by decide, by decide,
    (C1_cluster_ambiguity_gate envW respC1 (some (strCodes ("Beta"))) .noneV
      none none none 4 fzC1 (by decide) (by decide)).1 (by decide)⟩

/-- Claim C2 (code bug): when all three attempts of the retry loop raise
`elasticsearch.TransportError`, the local `results` is never assigned, so
the `isinstance(results, pd.DataFrame)` test after the loop raises
`UnboundLocalError` — `WB_Match` raises instead of returning the uniform
no-result signal the spec describes. -/
theorem C2_exhausted_retries_raise :
    WB_Match envW (fun _ => .error ()) (some (strCodes ("x"))) .noneV none
      none none 4 = .error .unboundLocal := by decide

/-- Claim C3: every resolution that produces a `MatchResult` satisfies the
combined-confidence rule: when the statistical confidence is a genuine
numeric value `q`, the combined confidence is the arithmetic mean
`(LEV + q) / 2`; when it is a sentinel string (sole match / sole postal
code), the combined confidence is the similarity score `LEV` alone. -/
theorem C3_combined_confidence (env : Env)
    (resp : ℕ → Except Unit (List Hit)) (ns : Option PyStr) (pc : PyVal)
    (bd : Option Boundary) (pg : Option (List (ℚ × ℚ)))
    (dd : Option (List (PyStr × PyStr))) (ε : ℚ) (out : Output)
    (h : WB_Match env resp ns pc bd pg dd ε = .ok (some out)) :
    (∀ q, out.outCONF = .f (.val q) →
      out.outCC = .f (.val ((out.outLEV + q) / 2))) ∧
    (∀ s, out.outCONF = .s s → out.outCC = .i out.outLEV) := by
  obtain ⟨f2, hsel⟩ := WB_Match_ok_some h
  have hcc := selectFinalize_cc hsel
  constructor
  · intro q hq
    rw [hcc, hq]
    rfl
  · intro s hs
    rw [hcc, hs]
    rfl

/-- Witness for C3: the well-separated pair (scores 10 and 90) resolves to
the score-90 candidate with numeric confidence 5/7 and similarity 80, and
the combined confidence is their average. -/
theorem C3_combined_confidence_witness :
    WB_Match envW respC3 (some (strCodes ("Beta"))) .noneV none none none 4 =
      .ok (some outW3) ∧
    outW3.outCONF = .f (.val (5 / 7)) ∧ outW3.outLEV = 80 ∧
    outW3.outCC = .f (.val ((outW3.outLEV + 5 / 7) / 2)) :=
  ⟨by decide, by decide, by decide,
    (C3_combined_confidence envW respC3 (some (strCodes ("Beta"))) .noneV none
      none none 4 outW3 (by decide)).1 (5 / 7) (by decide)⟩

/-- Counterexample to claim C4 as stated: an empty-string namestring is not
`None`, so `ES_Query` does not fail fast with the no-name signal — it
issues the index query and returns a candidate frame, and the overall
resolution even produces a match result instead of an immediate empty one. -/
theorem C4_counterexample_empty_namestring :
    ES_Query envW (.ok [hitB]) (some []) .noneV none none =
      .ok (.frame (buildFrame [hitB])) ∧
    (match WB_Match envW (fun _ => .ok [hitB]) (some []) .noneV none none
        none 4 with
      | .ok (some _) => true
      | _ => false) = true :=
  ⟨by decide, by decide⟩

/-- Claim C4 amended: the fail-fast path applies to a missing (`None`)
namestring, not to an empty string: with `namestring = None`, `ES_Query`
returns the `"No name supplied"` signal for every possible index response
(no query result is consulted), and `WB_Match` returns the immediate empty
result without retrying. -/
theorem C4_missing_namestring_fails_fast (env : Env)
    (r : Except Unit (List Hit)) (resp : ℕ → Except Unit (List Hit))
    (pc : PyVal) (bd : Option Boundary) (pg : Option (List (ℚ × ℚ)))
    (dd : Option (List (PyStr × PyStr))) (ε : ℚ) :
    ES_Query env r none pc bd pg =
      .ok (.strRet (strCodes ("No name supplied"))) ∧
    WB_Match env resp none pc bd pg dd ε = .ok none :=
  ⟨rfl, rfl⟩

/-- Counterexample to claim C5 as stated: for a comma-free search string
whose lookup misses, `searchstring.index(",")` raises `ValueError`, which
propagates to the caller — a geocode miss is not always absorbed. -/
theorem C5_counterexample_no_comma :
    get_bounds envW (strCodes ("Xyzzy")) = .error .valueError := by decide

/-- Claim C5 amended: for every search string containing a comma, a geocode
miss strips everything through the first comma, trims leading spaces and
retries once, falling back to the fixed country-wide box on a second miss,
and never propagates an exception; for comma-free strings a miss raises
`ValueError`. -/
theorem C5_fallback_chain (env : Env) (s : PyStr) (h : (44 : ℕ) ∈ s) :
    (get_bounds env s =
      match env.geocode s with
      | some l => .ok (mkBox l)
      | none =>
        match env.geocode (lstripSpace (afterFirstComma s)) with
        | some l => .ok (mkBox l)
        | none => .ok canadaBox) ∧
    ∀ e, get_bounds env s ≠ .error e := by
  constructor
  · unfold get_bounds
    cases env.geocode s with
    | some l => rfl
    | none => rw [if_pos h]
  · intro e he
    unfold get_bounds at he
    cases hg : env.geocode s with
    | some l =>
      rw [hg] at he
      exact Except.noConfusion he
    | none =>
      rw [hg, if_pos h] at he
      cases hg2 : env.geocode (lstripSpace (afterFirstComma s)) with
      | some l =>
        rw [hg2] at he
        exact Except.noConfusion he
      | none =>
        rw [hg2] at he
        exact Except.noConfusion he

/-- Witness for C5: a comma-containing address under the always-missing
geocoder falls back to the country-wide box. -/
theorem C5_fallback_chain_witness :
    ((44 : ℕ) ∈ strCodes ("12 Main St, Ottawa")) ∧
    get_bounds envW (strCodes ("12 Main St, Ottawa")) = .ok canadaBox := by
  refine ⟨by decide, ?_⟩
  rw [(C5_fallback_chain envW (strCodes ("12 Main St, Ottawa")) (by decide)).1]
  decide

/-- Counterexample to claim C6 as stated: on the two-candidate set with
equal scores the standard deviation is zero, the z-score division is the
IEEE `0/0`, and the confidence assigned is `NaN` — not a well-defined
numeric confidence for every candidate. -/
theorem C6_counterexample_zero_variance :
    ¬∀ r ∈ (get_confidence frC6).rows, getCellR r "z" ≠ CellVal.f .nan := by
  decide

/-- Claim C6 amended: on every candidate set with at least two members and
identical relevance scores, `get_confidence` raises no exception (the
embedding is a total frame transformation), but the zero-variance z-score
division performs `0/0` and assigns `NaN` to every candidate rather than a
numeric confidence. -/
theorem C6_zero_variance_nan (f : Frame) (c : ℚ)
    (h2 : 2 ≤ f.rows.length) (hall : ∀ r ∈ f.rows, r.score = c) :
    ∀ r ∈ (get_confidence f).rows, getCellR r "z" = .f .nan := by
  have hne : f.rows ≠ [] := by
    intro h0
    rw [h0] at h2
    exact absurd h2 (by decide)
  have hsc : ∀ x ∈ scoresOf f, x = c := by
    intro x hx
    obtain ⟨r, hr, he⟩ := List.mem_map.mp hx
    rw [← he]
    exact hall r hr
  have hscne : scoresOf f ≠ [] := by
    unfold scoresOf
    simp [hne]
  have hv : popVar (scoresOf f) = 0 := popVar_all_eq hscne hsc
  have hcv : confVals (scoresOf f) = (scoresOf f).map fun _ => PyFloat.nan :=
    confVals_all_nan hv
  unfold get_confidence
  rw [if_neg (show ¬f.rows.length = 1 by omega), hcv]
  unfold scoresOf
  rw [List.map_map, zipWith_map_self]
  intro r' hr'
  obtain ⟨r, hr, he⟩ := List.mem_map.mp hr'
  rw [← he]
  exact getCellR_upsert_self r.id r.score r.cells "z" _ (by decide)

/-- Witness for C6: the concrete equal-score frame `frC6` receives `NaN`
confidences. -/
theorem C6_zero_variance_nan_witness :
    2 ≤ frC6.rows.length ∧ (∀ r ∈ frC6.rows, r.score = 50) ∧
    ∀ r ∈ (get_confidence frC6).rows, getCellR r "z" = .f .nan :=
  ⟨by decide, by decide, C6_zero_variance_nan frC6 50 (by decide) (by decide)⟩

/-- Claim C7 (code bug): when no hit carries `alsoKnownAs`, the source runs
`results["alsoKnownAs"] = [""]`, a length-1 list assignment that pandas
rejects with `ValueError` whenever the frame has more than one row; the
empty-default column is only added successfully for a single hit, so the
documented guarantee fails for two or more hits. -/
theorem C7_aka_column_assignment :
    ES_Query envW (.ok [hitNoAka1, hitNoAka2]) (some (strCodes ("x"))) .noneV
      none none = .error .valueError ∧
    ES_Query envW (.ok [hitNoAka1]) (some (strCodes ("x"))) .noneV none none =
      .ok (.frame (forceAKA (buildFrame [hitNoAka1]))) :=
  ⟨by decide, by decide⟩

/-- Counterexample to claim C8 as stated: an integer input (non-string,
non-float) reaches `PC.lstrip(' ')` and raises `AttributeError` instead of
silently returning the empty result. -/
theorem C8_counterexample_int_input :
    normalize_postalcode (.intV 7) = .error .attributeError := rfl

/-- Claim C8 amended: `normalize_postalcode` silently returns the empty
result (`None`) for missing (`None`) and float (the pandas `NaN` case)
input; any other non-string input raises `AttributeError`. -/
theorem C8_none_float_silent :
    normalize_postalcode .noneV = .ok .noneV ∧
    (∀ x, normalize_postalcode (.floatV x) = .ok .noneV) ∧
    ∀ n, normalize_postalcode (.intV n) = .error .attributeError :=
  ⟨rfl, fun _ => rfl, fun _ => rfl⟩

/-- Claim C9: `normalize_postalcode` is idempotent on valid input strings
(ASCII code points, where the modelled case mapping coincides with
Python's): normalising an already-normalised string returns it unchanged. -/
theorem C9_normalize_idempotent (s : PyStr) (h : ∀ c ∈ s, c < 128) :
    (normalize_postalcode (.strV s)).bind normalize_postalcode =
      normalize_postalcode (.strV s) := by
  show normalize_postalcode (.strV (normPC s)) = _
  simp [normalize_postalcode, normPC_self]

/-- Witness for C9 on the unspaced lower-case postal code `a1a1a1`. -/
theorem C9_normalize_idempotent_witness :
    (∀ c ∈ strCodes ("a1a1a1"), c < 128) ∧
    (normalize_postalcode (.strV (strCodes ("a1a1a1")))).bind
        normalize_postalcode =
      normalize_postalcode (.strV (strCodes ("a1a1a1"))) :=
  ⟨by decide, C9_normalize_idempotent (strCodes ("a1a1a1")) (by decide)⟩

/-- Claim C10: with a non-empty `DiagnosticDictionary`, the comparison
values for the diagnostic fields are read eagerly from the selected
candidate frame regardless of which keys the caller included, so a
resolution that produces a result without diagnostics instead raises
`KeyError` whenever one of the six tag columns is absent from the retrieved
candidate table or the caller's map holds a non-empty value under a key
outside the eight supported names. -/
theorem C10_diagnostic_eager_key_errors (env : Env)
    (resp : ℕ → Except Unit (List Hit)) (ns : Option PyStr) (pc : PyVal)
    (bd : Option Boundary) (pg : Option (List (ℚ × ℚ))) (ε : ℚ)
    (entries : List (PyStr × PyStr)) (f : Frame) (out : Output)
    (hne : entries ≠ [])
    (hf : runAttempts (fun i => ES_Query env (resp i) ns pc bd pg) =
      .ok (some (.frame f)))
    (hok : WB_Match env resp ns pc bd pg none ε = .ok (some out))
    (hbad : (∃ c ∈ diagCols, c ∉ f.cols) ∨
      ∃ kv ∈ entries, kv.2 ≠ [] ∧ kv.1 ∉ diagKeys) :
    WB_Match env resp ns pc bd pg (some entries) ε = .error .keyError := by
  unfold WB_Match at hok ⊢
  cases hq : queryAndScore env resp ns pc bd pg with
  | error e =>
    rw [hq] at hok
    exact Except.noConfusion hok
  | ok o =>
    cases o with
    | none =>
      rw [hq] at hok
      simp at hok
    | some fz =>
      rw [hq] at hok
      dsimp only at hok ⊢
      have hbad2 : (∃ c ∈ diagCols, c ∉ fz.cols) ∨
          ∃ kv ∈ entries, kv.2 ≠ [] ∧ kv.1 ∉ diagKeys := by
        rcases hbad with ⟨c, hcd, hcf⟩ | hk
        · left
          refine ⟨c, hcd, fun hc2 => ?_⟩
          rcases queryAndScore_cols hf hq c hc2 with h4 | h4 | h4
          · exact hcf h4
          · exact diagCols_not_added c hcd (Or.inl h4)
          · exact diagCols_not_added c hcd (Or.inr (Or.inl h4))
        · right
          exact hk
      unfold afterScoring at hok ⊢
      cases hcg : clusterGate ε fz with
      | error e =>
        rw [hcg] at hok
        exact Except.noConfusion hok
      | ok og =>
        cases og with
        | none =>
          rw [hcg] at hok
          simp at hok
        | some f2 =>
          rw [hcg] at hok
          dsimp only at hok ⊢
          have hbad3 : (∃ c ∈ diagCols, c ∉ f2.cols) ∨
              ∃ kv ∈ entries, kv.2 ≠ [] ∧ kv.1 ∉ diagKeys := by
            rcases hbad2 with ⟨c, hcd, hcf⟩ | hk
            · left
              refine ⟨c, hcd, fun hc2 => ?_⟩
              rcases clusterGate_cols hcg c hc2 with h4 | h4
              · exact hcf h4
              · exact diagCols_not_added c hcd (Or.inr (Or.inr h4))
            · right
              exact hk
          by_cases hL0 : f2.rows.length = 0
          · rw [if_pos hL0] at hok
            simp at hok
          · rw [if_neg hL0] at hok ⊢
            cases hs : selectFinalize env ns none f2 with
            | error e =>
              rw [hs] at hok
              exact Except.noConfusion hok
            | ok o2 =>
              rw [selectFinalize_diag_keyError env ns entries f2 o2 hs hbad3]

/-- Witness for C10: a single candidate lacking the `faith` column resolves
normally without diagnostics, but raises `KeyError` as soon as any
diagnostic dictionary is supplied. -/
theorem C10_diagnostic_eager_key_errors_witness :
    entriesW10 ≠ [] ∧
    runAttempts (fun i => ES_Query envW (respC10 i) (some (strCodes ("Alpha")))
      .noneV none none) = .ok (some (.frame (buildFrame [hitA]))) ∧
    WB_Match envW respC10 (some (strCodes ("Alpha"))) .noneV none none none 4 =
      .ok (some outW10) ∧
    ("faith" ∈ diagCols ∧ "faith" ∉ (buildFrame [hitA]).cols) ∧
    WB_Match envW respC10 (some (strCodes ("Alpha"))) .noneV none none
      (some entriesW10) 4 = .error .keyError :=
  ⟨by decide, by decide, by decide, ⟨by decide, by decide⟩,
    C10_diagnostic_eager_key_errors envW respC10 (some (strCodes ("Alpha")))
      .noneV none none 4 entriesW10 (buildFrame [hitA]) outW10 (by decide)
      (by decide) (by decide)
      (Or.inl ⟨"faith", by decide, by decide⟩)⟩

end ClaimTheorems
